import Mathlib

/-!
Shallow embedding of the elevation-builder pass
(`src/mjolnir/elevationbuilder.cc`).

The pass rewrites the directed-edge records of each graph tile with a
weighted-grade bucket and max up/down slopes, and stores a mean elevation per
EdgeInfo offset.  External collaborators that live outside this translation
unit (the terrain sampling service `skadi::sample`, the polyline resampler
`resample_spherical_polyline`, the numerical routine `skadi::weighted_grade`,
and the two no-data constants) are abstracted as an `Env` record of functions
and values; the logic of `elevationbuilder.cc` itself is translated
definition by definition.  `double`/`float` arithmetic is modelled by exact
rationals.
-/

namespace ElevationBuilder

/-- A geographic point (`midgard::PointLL`), coordinates as rationals. -/
abbrev Point : Type := ℚ × ℚ

/-- Result tuple of `skadi::weighted_grade(heights, interval)`:
weighted grade, max up slope, max down slope, mean elevation. -/
structure Grades where
  grade : ℚ
  max_up : ℚ
  max_down : ℚ
  mean_elev : ℚ
deriving DecidableEq

/-- The external collaborators used by `add_elevations_to_single_tile`,
treated as given (they are defined outside this translation unit):
`resample_spherical_polyline`, `sample::get_all`, `skadi::weighted_grade`,
`skadi::get_no_data_value()` and the stored sentinel `kNoElevationData`. -/
structure Env where
  resample : List Point → ℚ → List Point
  get_all : List Point → List ℚ
  weighted_grade : List ℚ → ℚ → Grades
  no_data_value : ℚ
  kNoElevationData : ℚ

/-- The fields of one `DirectedEdge` record read by the pass:
edge-info offset, length in meters (`uint32_t`), tunnel flag,
ferry use (`use() == Use::kFerry`), bridge flag, forward-orientation flag. -/
structure DirectedEdge where
  edgeinfo_offset : ℕ
  length : ℕ
  tunnel : Bool
  ferry : Bool
  bridge : Bool
  forward : Bool
deriving DecidableEq

/-- The fields of one `DirectedEdge` record written by the pass
(`set_weighted_grade`, `set_max_up_slope`, `set_max_down_slope`). -/
structure EdgeElevation where
  weighted_grade : ℤ
  max_up_slope : ℚ
  max_down_slope : ℚ
deriving DecidableEq

/-- One value of `cache_t`: the six-component tuple
`(forward grade bucket, reverse grade bucket, forward max up, forward max
down, reverse max up, reverse max down)` (lines 33-34, 105-109). -/
structure GradeEntry where
  forward_grade : ℤ
  reverse_grade : ℤ
  forward_max_up : ℚ
  forward_max_down : ℚ
  reverse_max_up : ℚ
  reverse_max_down : ℚ
deriving DecidableEq

/-- `static_cast<uint32_t>(g * .6 + 6.5)` (lines 103-104), with the double
arithmetic taken exact.  On the range where the C++ conversion is defined
(values in `[0, 2^32)`) truncation toward zero agrees with the floor. -/
def gradeBucket (g : ℚ) : ℤ := ⌊g * (6 / 10) + 13 / 2⌋

/-- Sampling choice (lines 73-81): if `length < POSTING_INTERVAL * 3` (180 m)
or the edge is a bridge, take just the two shape endpoints and use the edge
length as the interval; otherwise resample the shape every 60 meters.
Returns the sampled points and the interval handed to `weighted_grade`. -/
def chosenSampling (env : Env) (shape : List Point) (e : DirectedEdge) :
    List Point × ℚ :=
  if e.length < 180 ∨ e.bridge = true then
    ([shape.headI, shape.getLastI], (e.length : ℚ))
  else
    (env.resample shape 60, 60)

/-- Grade estimation for one physical edge on a cache miss (lines 69-100).
Returns the forward tuple, the reverse tuple, and the query made to the
height service (sampled points and the interval also passed to
`weighted_grade`), `none` when sampling is skipped for a tunnel/ferry. -/
def missGrades (env : Env) (shape : List Point) (e : DirectedEdge) :
    Grades × Grades × Option (List Point × ℚ) :=
  if e.tunnel = false ∧ e.ferry = false then
    let s := chosenSampling env shape e
    let heights := env.get_all s.1
    let grades := env.weighted_grade heights s.2
    if e.length < 10 then
      -- length < kMinimumInterval: keep the default grades, set the mean
      (⟨0, 0, 0, grades.mean_elev⟩, ⟨0, 0, 0, grades.mean_elev⟩, some s)
    else
      (grades, env.weighted_grade heights.reverse s.2, some s)
  else
    (⟨0, 0, 0, 0⟩, ⟨0, 0, 0, 0⟩, none)

/-- The cache entry inserted for an edge-info offset (lines 102-110). -/
def entryFor (env : Env) (shape : List Point) (e : DirectedEdge) : GradeEntry :=
  let g := missGrades env shape e
  { forward_grade := gradeBucket g.1.grade
    reverse_grade := gradeBucket g.2.1.grade
    forward_max_up := g.1.max_up
    forward_max_down := g.1.max_down
    reverse_max_up := g.2.1.max_up
    reverse_max_down := g.2.1.max_down }

/-- The mean elevation stored on EdgeInfo for the offset (lines 112-117):
the computed mean, or `kNoElevationData` when it equals the service's
no-data value. -/
def meanFor (env : Env) (shape : List Point) (e : DirectedEdge) : ℚ :=
  let m := (missGrades env shape e).1.mean_elev
  if m = env.no_data_value then env.kNoElevationData else m

/-- Observation of the height-service query plus weighted-grade run made by a
cache miss: the offset, the points handed to `get_all` and the interval
handed to `weighted_grade`; empty when sampling is skipped. -/
def queryFor (env : Env) (shape : List Point) (e : DirectedEdge) :
    List (ℕ × List Point × ℚ) :=
  match (missGrades env shape e).2.2 with
  | some s => [(e.edgeinfo_offset, s)]
  | none => []

/-- Application of a cache entry to one directed-edge record (lines 120-128):
the forward triple when the record's forward flag is set, else the reverse
triple. -/
def applyEntry (e : DirectedEdge) (g : GradeEntry) : EdgeElevation :=
  if e.forward = true then
    ⟨g.forward_grade, g.forward_max_up, g.forward_max_down⟩
  else
    ⟨g.reverse_grade, g.reverse_max_up, g.reverse_max_down⟩

/-- `unordered_map::find` on an association list. -/
def assocFind {α : Type} (o : ℕ) : List (ℕ × α) → Option α
  | [] => none
  | (k, v) :: rest => if o = k then some v else assocFind o rest

/-- Number of occurrences of a key in a list of naturals. -/
def countOcc (o : ℕ) : List ℕ → ℕ
  | [] => 0
  | k :: rest => (if o = k then 1 else 0) + countOcc o rest

/-- The evolving state of `add_elevations_to_single_tile`: the
GeoAttributeCache, the mean-elevation writes (`set_mean_elevation`), the
directed-edge writes in visit order, and two observation logs: the
height-service queries made and the offsets whose miss computation ran. -/
structure TileState where
  cache : List (ℕ × GradeEntry)
  meanElev : List (ℕ × ℚ)
  written : List EdgeElevation
  queries : List (ℕ × List Point × ℚ)
  misses : List ℕ
deriving DecidableEq

/-- The loop body for one directed edge (lines 55-129): look the offset up in
the cache; on a miss run the grade estimation, insert the entry and store the
mean elevation; then write the record from the (found or inserted) entry. -/
def stepEdge (env : Env) (shapes : ℕ → List Point) (st : TileState)
    (e : DirectedEdge) : TileState :=
  match assocFind e.edgeinfo_offset st.cache with
  | some g => { st with written := st.written ++ [applyEntry e g] }
  | none =>
      let shape := shapes e.edgeinfo_offset
      { cache := (e.edgeinfo_offset, entryFor env shape e) :: st.cache
        meanElev := (e.edgeinfo_offset, meanFor env shape e) :: st.meanElev
        written := st.written ++ [applyEntry e (entryFor env shape e)]
        queries := st.queries ++ queryFor env shape e
        misses := st.misses ++ [e.edgeinfo_offset] }

/-- Sequential iteration over the tile's directed edges (the `for` loop of
lines 55-129). -/
def runEdges (env : Env) (shapes : ℕ → List Point) :
    TileState → List DirectedEdge → TileState
  | st, [] => st
  | st, e :: es => runEdges env shapes (stepEdge env shapes st e) es

/-- One tile: its directed-edge records and the shape stored at each
edge-info offset. -/
structure Tile where
  edges : List DirectedEdge
  shapes : ℕ → List Point

/-- The empty per-tile state. -/
def initState : TileState := ⟨[], [], [], [], []⟩

/-- `add_elevations_to_single_tile` (lines 36-140): the worker's cache is
received from the caller and cleared before any lookup (line 51), then the
directed edges are processed in order. -/
def processTile (env : Env) (cacheIn : List (ℕ × GradeEntry)) (t : Tile) :
    TileState :=
  -- line 51: cache.clear() — the incoming contents are discarded
  let _ := cacheIn
  runEdges env t.shapes initState t.edges

/-- The per-worker loop over the tiles it pops
(`add_elevations_to_multiple_tiles`, lines 145-172): one GeoAttributeCache
object is reused across all tiles of the worker.  Returns the per-tile
outputs and the final cache contents. -/
def workerRun (env : Env) :
    List (ℕ × GradeEntry) → List Tile → List TileState × List (ℕ × GradeEntry)
  | c, [] => ([], c)
  | c, t :: ts =>
      let st := processTile env c t
      let r := workerRun env st.cache ts
      (st :: r.1, r.2)

/-- Configuration read by `ElevationBuilder::Build`:
`additional_data.elevation`, `filesystem::exists`, `mjolnir.concurrency` and
`std::thread::hardware_concurrency()`. -/
structure BuildConfig where
  elevation : Option String
  pathExists : String → Bool
  concurrency : Option ℕ
  hardware_concurrency : ℕ

/-- Observable outcome of `ElevationBuilder::Build`: whether the warning
path returned early, how many worker threads were spawned, and the per-tile
outputs of the pass. -/
structure BuildResult where
  warned : Bool
  workers : ℕ
  outputs : List TileState
deriving DecidableEq

/-- `ElevationBuilder::Build` (lines 193-226): return with a warning when the
elevation source is missing or nonexistent; otherwise resolve the thread
count, enumerate tiles when none were supplied, and run the pass. -/
def Build (env : Env) (enumerated : List Tile) (cfg : BuildConfig)
    (tile_ids : List Tile) : BuildResult :=
  match cfg.elevation with
  | none => ⟨true, 0, []⟩
  | some path =>
      if cfg.pathExists path then
        let nthreads := max 1 (cfg.concurrency.getD cfg.hardware_concurrency)
        let tiles := if tile_ids.isEmpty then enumerated else tile_ids
        ⟨false, nthreads, (workerRun env [] tiles).1⟩
      else
        ⟨true, 0, []⟩

/-- The mutex-protected tile queue of `add_elevations_to_multiple_tiles`
(lines 159-171).  All pops are serialized by the single lock, so a run is an
interleaving: the schedule lists which worker holds the lock at each pop
attempt; a worker finding the queue empty terminates (pops nothing).
Returns the final queue and the log of `(worker, tile id)` pops. -/
def runQueue : List ℕ → List ℕ → List ℕ × List (ℕ × ℕ)
  | q, [] => (q, [])
  | q, w :: rest =>
      match q with
      | [] => runQueue [] rest
      | id :: q2 =>
          let r := runQueue q2 rest
          (r.1, (w, id) :: r.2)

/-! ### Basic lemmas: association lists, counters, miss computation -/

theorem assocFind_cons_self {α : Type} (o : ℕ) (v : α) (l : List (ℕ × α)) :
    assocFind o ((o, v) :: l) = some v := by
  simp [assocFind]

theorem assocFind_cons_ne {α : Type} {o k : ℕ} (h : o ≠ k) (v : α)
    (l : List (ℕ × α)) : assocFind o ((k, v) :: l) = assocFind o l := by
  simp [assocFind, h]

theorem countOcc_append (o : ℕ) (l₁ l₂ : List ℕ) :
    countOcc o (l₁ ++ l₂) = countOcc o l₁ + countOcc o l₂ := by
  induction l₁ with
  | nil => simp [countOcc]
  | cons k rest ih => simp [countOcc, ih, Nat.add_assoc]

theorem countOcc_queryFor (env : Env) (sh : List Point) (e : DirectedEdge)
    (o : ℕ) :
    countOcc o ((queryFor env sh e).map Prod.fst) =
      if o = e.edgeinfo_offset then (queryFor env sh e).length else 0 := by
  unfold queryFor
  cases (missGrades env sh e).2.2 with
  | none => simp [countOcc]
  | some s => simp [countOcc]

theorem queryFor_length (env : Env) (sh : List Point) (e : DirectedEdge) :
    (queryFor env sh e).length =
      if e.tunnel = false ∧ e.ferry = false then 1 else 0 := by
  by_cases h : e.tunnel = false ∧ e.ferry = false
  · by_cases hl : e.length < 10 <;> simp [queryFor, missGrades, h, hl]
  · simp [queryFor, missGrades, h]

theorem missGrades_tunnel_ferry (env : Env) (sh : List Point)
    {e : DirectedEdge} (h : e.tunnel = true ∨ e.ferry = true) :
    missGrades env sh e = (⟨0, 0, 0, 0⟩, ⟨0, 0, 0, 0⟩, none) := by
  have hn : ¬ (e.tunnel = false ∧ e.ferry = false) := by
    rcases h with h | h <;> simp [h]
  simp [missGrades, hn]

theorem missGrades_short (env : Env) (sh : List Point) {e : DirectedEdge}
    (ht : e.tunnel = false) (hf : e.ferry = false) (hl : e.length < 10) :
    missGrades env sh e =
      (⟨0, 0, 0, (env.weighted_grade (env.get_all (chosenSampling env sh e).1)
          (chosenSampling env sh e).2).mean_elev⟩,
       ⟨0, 0, 0, (env.weighted_grade (env.get_all (chosenSampling env sh e).1)
          (chosenSampling env sh e).2).mean_elev⟩,
       some (chosenSampling env sh e)) := by
  simp [missGrades, ht, hf, hl]

theorem missGrades_long (env : Env) (sh : List Point) {e : DirectedEdge}
    (ht : e.tunnel = false) (hf : e.ferry = false) (hl : ¬ e.length < 10) :
    missGrades env sh e =
      (env.weighted_grade (env.get_all (chosenSampling env sh e).1)
         (chosenSampling env sh e).2,
       env.weighted_grade (env.get_all (chosenSampling env sh e).1).reverse
         (chosenSampling env sh e).2,
       some (chosenSampling env sh e)) := by
  simp [missGrades, ht, hf, hl]

theorem gradeBucket_zero : gradeBucket 0 = 6 := by
  norm_num [gradeBucket]

/-! ### Lemmas about the per-tile loop -/

theorem stepEdge_hit (env : Env) (shapes : ℕ → List Point) (st : TileState)
    (e : DirectedEdge) {g : GradeEntry}
    (h : assocFind e.edgeinfo_offset st.cache = some g) :
    stepEdge env shapes st e =
      { st with written := st.written ++ [applyEntry e g] } := by
  unfold stepEdge
  rw [h]

theorem stepEdge_miss (env : Env) (shapes : ℕ → List Point) (st : TileState)
    (e : DirectedEdge) (h : assocFind e.edgeinfo_offset st.cache = none) :
    stepEdge env shapes st e =
      { cache := (e.edgeinfo_offset,
            entryFor env (shapes e.edgeinfo_offset) e) :: st.cache
        meanElev := (e.edgeinfo_offset,
            meanFor env (shapes e.edgeinfo_offset) e) :: st.meanElev
        written := st.written ++
            [applyEntry e (entryFor env (shapes e.edgeinfo_offset) e)]
        queries := st.queries ++ queryFor env (shapes e.edgeinfo_offset) e
        misses := st.misses ++ [e.edgeinfo_offset] } := by
  unfold stepEdge
  rw [h]

theorem runEdges_nil (env : Env) (shapes : ℕ → List Point) (st : TileState) :
    runEdges env shapes st [] = st := rfl

theorem runEdges_cons (env : Env) (shapes : ℕ → List Point) (st : TileState)
    (e : DirectedEdge) (es : List DirectedEdge) :
    runEdges env shapes st (e :: es) =
      runEdges env shapes (stepEdge env shapes st e) es := rfl

theorem runEdges_append (env : Env) (shapes : ℕ → List Point)
    (p q : List DirectedEdge) :
    ∀ st, runEdges env shapes st (p ++ q) =
      runEdges env shapes (runEdges env shapes st p) q := by
  induction p with
  | nil => intro st; rfl
  | cons e es ih =>
      intro st
      rw [List.cons_append, runEdges_cons, ih, runEdges_cons]

/-- While no edge with offset `o` is processed, all `o`-keyed observations of
the state are unchanged. -/
theorem runEdges_untouched (env : Env) (shapes : ℕ → List Point) (o : ℕ) :
    ∀ (p : List DirectedEdge) (st : TileState),
      (∀ x ∈ p, x.edgeinfo_offset ≠ o) →
      assocFind o (runEdges env shapes st p).cache = assocFind o st.cache ∧
      assocFind o (runEdges env shapes st p).meanElev =
        assocFind o st.meanElev ∧
      countOcc o (runEdges env shapes st p).misses = countOcc o st.misses ∧
      countOcc o ((runEdges env shapes st p).queries.map Prod.fst) =
        countOcc o (st.queries.map Prod.fst) := by
  intro p
  induction p with
  | nil => intro st _; exact ⟨rfl, rfl, rfl, rfl⟩
  | cons e es ih =>
      intro st hp
      have he : e.edgeinfo_offset ≠ o := hp e (by simp)
      have hes : ∀ x ∈ es, x.edgeinfo_offset ≠ o := fun x hx =>
        hp x (by simp [hx])
      rw [runEdges_cons]
      have key :
          assocFind o (stepEdge env shapes st e).cache =
            assocFind o st.cache ∧
          assocFind o (stepEdge env shapes st e).meanElev =
            assocFind o st.meanElev ∧
          countOcc o (stepEdge env shapes st e).misses =
            countOcc o st.misses ∧
          countOcc o ((stepEdge env shapes st e).queries.map Prod.fst) =
            countOcc o (st.queries.map Prod.fst) := by
        cases h : assocFind e.edgeinfo_offset st.cache with
        | some g =>
            rw [stepEdge_hit env shapes st e h]
            exact ⟨rfl, rfl, rfl, rfl⟩
        | none =>
            rw [stepEdge_miss env shapes st e h]
            refine ⟨?_, ?_, ?_, ?_⟩
            · exact assocFind_cons_ne (Ne.symm he) _ _
            · exact assocFind_cons_ne (Ne.symm he) _ _
            · rw [countOcc_append]; simp [countOcc, Ne.symm he]
            · rw [List.map_append, countOcc_append, countOcc_queryFor]
              simp [Ne.symm he]
      obtain ⟨c1, c2, c3, c4⟩ := key
      obtain ⟨d1, d2, d3, d4⟩ := ih (stepEdge env shapes st e) hes
      exact ⟨d1.trans c1, d2.trans c2, d3.trans c3, d4.trans c4⟩

/-- Once the cache holds an entry for `o`, it is never replaced and the
`o`-keyed observations of the state no longer change. -/
theorem runEdges_persist (env : Env) (shapes : ℕ → List Point) (o : ℕ)
    (g : GradeEntry) :
    ∀ (p : List DirectedEdge) (st : TileState),
      assocFind o st.cache = some g →
      assocFind o (runEdges env shapes st p).cache = some g ∧
      assocFind o (runEdges env shapes st p).meanElev =
        assocFind o st.meanElev ∧
      countOcc o (runEdges env shapes st p).misses = countOcc o st.misses ∧
      countOcc o ((runEdges env shapes st p).queries.map Prod.fst) =
        countOcc o (st.queries.map Prod.fst) := by
  intro p
  induction p with
  | nil => intro st h; exact ⟨h, rfl, rfl, rfl⟩
  | cons e es ih =>
      intro st h
      rw [runEdges_cons]
      have key :
          assocFind o (stepEdge env shapes st e).cache = some g ∧
          assocFind o (stepEdge env shapes st e).meanElev =
            assocFind o st.meanElev ∧
          countOcc o (stepEdge env shapes st e).misses =
            countOcc o st.misses ∧
          countOcc o ((stepEdge env shapes st e).queries.map Prod.fst) =
            countOcc o (st.queries.map Prod.fst) := by
        cases hf : assocFind e.edgeinfo_offset st.cache with
        | some g2 =>
            rw [stepEdge_hit env shapes st e hf]
            exact ⟨h, rfl, rfl, rfl⟩
        | none =>
            have hne : o ≠ e.edgeinfo_offset := by
              intro hoe
              rw [hoe] at h
              rw [h] at hf
              cases hf
            rw [stepEdge_miss env shapes st e hf]
            refine ⟨?_, ?_, ?_, ?_⟩
            · rw [assocFind_cons_ne hne]; exact h
            · exact assocFind_cons_ne hne _ _
            · rw [countOcc_append]; simp [countOcc, hne]
            · rw [List.map_append, countOcc_append, countOcc_queryFor]
              simp [hne]
      obtain ⟨c1, c2, c3, c4⟩ := key
      obtain ⟨d1, d2, d3, d4⟩ := ih (stepEdge env shapes st e) c1
      exact ⟨d1, d2.trans c2, d3.trans c3, d4.trans c4⟩

theorem stepEdge_written (env : Env) (shapes : ℕ → List Point)
    (st : TileState) (e : DirectedEdge) :
    (stepEdge env shapes st e).written =
      st.written ++ [applyEntry e ((assocFind e.edgeinfo_offset st.cache).getD
        (entryFor env (shapes e.edgeinfo_offset) e))] := by
  cases h : assocFind e.edgeinfo_offset st.cache with
  | some g => rw [stepEdge_hit env shapes st e h]; rfl
  | none => rw [stepEdge_miss env shapes st e h]; rfl

theorem runEdges_written_length (env : Env) (shapes : ℕ → List Point) :
    ∀ (p : List DirectedEdge) (st : TileState),
      (runEdges env shapes st p).written.length =
        st.written.length + p.length := by
  intro p
  induction p with
  | nil => intro st; simp [runEdges_nil]
  | cons e es ih =>
      intro st
      rw [runEdges_cons, ih, stepEdge_written]
      simp [List.length_append]
      omega

theorem runEdges_written_get (env : Env) (shapes : ℕ → List Point) :
    ∀ (p : List DirectedEdge) (st : TileState) (k : ℕ),
      k < st.written.length →
      (runEdges env shapes st p).written[k]? = st.written[k]? := by
  intro p
  induction p with
  | nil => intro st k _; rfl
  | cons e es ih =>
      intro st k hk
      rw [runEdges_cons]
      have h1 : (stepEdge env shapes st e).written[k]? = st.written[k]? := by
        rw [stepEdge_written]
        exact List.getElem?_append_left hk
      have h2 : k < (stepEdge env shapes st e).written.length := by
        rw [stepEdge_written]
        simp [List.length_append]
        omega
      rw [ih _ k h2, h1]

/-- The record at position `P.length` past the already-written prefix is
written from the cache entry found for its offset after processing `P`, or
from the freshly computed entry on a miss. -/
theorem runEdges_written_at (env : Env) (shapes : ℕ → List Point)
    (P : List DirectedEdge) (e : DirectedEdge) (Q : List DirectedEdge)
    (st : TileState) :
    (runEdges env shapes st (P ++ e :: Q)).written[st.written.length +
        P.length]? =
      some (applyEntry e ((assocFind e.edgeinfo_offset
        (runEdges env shapes st P).cache).getD
        (entryFor env (shapes e.edgeinfo_offset) e))) := by
  rw [runEdges_append, runEdges_cons]
  have hlen : (runEdges env shapes st P).written.length =
      st.written.length + P.length := runEdges_written_length env shapes P st
  have hidx : st.written.length + P.length <
      (stepEdge env shapes (runEdges env shapes st P) e).written.length := by
    rw [stepEdge_written]
    simp [List.length_append]
    omega
  rw [runEdges_written_get env shapes Q _ _ hidx, stepEdge_written, ← hlen]
  simp

/-- Master lemma: when `e` is the first record of its offset in the tile, its
processing runs the miss computation, fills the cache and the mean-elevation
field for that offset, and writes the record from the fresh entry; the miss
ran exactly once over the whole tile and the height service was queried
`(queryFor …).length` times (once unless sampling was skipped). -/
theorem runEdges_first_miss (env : Env) (shapes : ℕ → List Point)
    (pre : List DirectedEdge) (e : DirectedEdge) (post : List DirectedEdge)
    (hpre : ∀ x ∈ pre, x.edgeinfo_offset ≠ e.edgeinfo_offset) :
    assocFind e.edgeinfo_offset
        (runEdges env shapes initState (pre ++ e :: post)).cache =
      some (entryFor env (shapes e.edgeinfo_offset) e) ∧
    assocFind e.edgeinfo_offset
        (runEdges env shapes initState (pre ++ e :: post)).meanElev =
      some (meanFor env (shapes e.edgeinfo_offset) e) ∧
    countOcc e.edgeinfo_offset
        (runEdges env shapes initState (pre ++ e :: post)).misses = 1 ∧
    countOcc e.edgeinfo_offset
        ((runEdges env shapes initState (pre ++ e :: post)).queries.map
          Prod.fst) =
      (queryFor env (shapes e.edgeinfo_offset) e).length ∧
    (runEdges env shapes initState (pre ++ e :: post)).written[pre.length]? =
      some (applyEntry e (entryFor env (shapes e.edgeinfo_offset) e)) := by
  obtain ⟨hu1, hu2, hu3, hu4⟩ :=
    runEdges_untouched env shapes e.edgeinfo_offset pre initState hpre
  have hc1 : assocFind e.edgeinfo_offset
      (runEdges env shapes initState pre).cache = none := by
    rw [hu1]; rfl
  have hstep := stepEdge_miss env shapes (runEdges env shapes initState pre)
    e hc1
  have hc2 : assocFind e.edgeinfo_offset
      (stepEdge env shapes (runEdges env shapes initState pre) e).cache =
      some (entryFor env (shapes e.edgeinfo_offset) e) := by
    rw [hstep]
    exact assocFind_cons_self _ _ _
  obtain ⟨hp1, hp2, hp3, hp4⟩ := runEdges_persist env shapes
    e.edgeinfo_offset (entryFor env (shapes e.edgeinfo_offset) e) post
    (stepEdge env shapes (runEdges env shapes initState pre) e) hc2
  have hrun : runEdges env shapes initState (pre ++ e :: post) =
      runEdges env shapes
        (stepEdge env shapes (runEdges env shapes initState pre) e) post := by
    rw [runEdges_append, runEdges_cons]
  refine ⟨by rw [hrun]; exact hp1, ?_, ?_, ?_, ?_⟩
  · rw [hrun, hp2, hstep]
    exact assocFind_cons_self _ _ _
  · rw [hrun, hp3, hstep]
    simp only [countOcc_append, hu3]
    simp [countOcc]
  · rw [hrun, hp4, hstep]
    simp only [List.map_append, countOcc_append, hu4]
    rw [countOcc_queryFor]
    simp [initState, countOcc]
  · have hw := runEdges_written_at env shapes pre e post initState
    rw [hc1] at hw
    simpa [initState] using hw

/-- Master lemma for the second record of a shared offset: it is written from
the entry computed at the first record, selected by its own forward flag. -/
theorem runEdges_second_written (env : Env) (shapes : ℕ → List Point)
    (pre : List DirectedEdge) (e : DirectedEdge) (mid : List DirectedEdge)
    (e₂ : DirectedEdge) (post : List DirectedEdge)
    (hpre : ∀ x ∈ pre, x.edgeinfo_offset ≠ e.edgeinfo_offset)
    (h₂ : e₂.edgeinfo_offset = e.edgeinfo_offset) :
    (runEdges env shapes initState
        (pre ++ e :: (mid ++ e₂ :: post))).written[pre.length + 1 +
          mid.length]? =
      some (applyEntry e₂ (entryFor env (shapes e.edgeinfo_offset) e)) := by
  have hassoc : pre ++ e :: (mid ++ e₂ :: post) =
      (pre ++ e :: mid) ++ e₂ :: post := by
    simp
  have hcache := (runEdges_first_miss env shapes pre e mid hpre).1
  have hw := runEdges_written_at env shapes (pre ++ e :: mid) e₂ post
    initState
  rw [h₂, hcache] at hw
  have hidx : pre.length + 1 + mid.length =
      initState.written.length + (pre ++ e :: mid).length := by
    simp [initState, List.length_append]
    omega
  rw [hassoc, hidx]
  simpa [h₂] using hw

/-! ### Concrete collaborators and inputs used by witnesses and
counterexamples.  The sentinels are modelled from the spec: a "no data"
sentinel is an out-of-band height value distinct from any valid elevation
(in particular nonzero); the remaining collaborator functions are arbitrary
concrete stand-ins. -/

def envC : Env :=
  { resample := fun pts _ => pts
    get_all := fun pts => pts.map Prod.snd
    weighted_grade := fun hs itv => ⟨hs.headI, itv, hs.headI - itv, hs.headI + itv⟩
    no_data_value := -32768
    kNoElevationData := 32768 }

/-- A tunnel edge (offset 7, 25 m long). -/
def tunnelEdge : DirectedEdge := ⟨7, 25, true, false, false, true⟩

/-- A concrete shape store: every offset maps to a two-point polyline. -/
def shapesC : ℕ → List Point := fun _ => [(0, 1), (0, 2)]

/-- A one-record tile holding the tunnel edge. -/
def tileC : Tile := ⟨[tunnelEdge], shapesC⟩

/-- A plain forward edge (offset 3, 20 m, no tunnel/ferry/bridge). -/
def fwdEdge : DirectedEdge := ⟨3, 20, false, false, false, true⟩

/-- The opposite-direction record of `fwdEdge` (same offset 3). -/
def revEdge : DirectedEdge := ⟨3, 20, false, false, false, false⟩

/-- A 7 m edge (shorter than the 10 m minimum interval). -/
def shortEdge : DirectedEdge := ⟨4, 7, false, false, false, true⟩

/-- A 5 m tunnel edge (tunnel and shorter than the minimum interval). -/
def shortTunnelEdge : DirectedEdge := ⟨9, 5, true, false, false, false⟩

/-! ### Claims -/

/-- C1, counterexample to the claim as stated: for a tunnel edge the
mean-elevation field stored for its EdgeInfoOffset is `0` (the mean of the
zeroed default grade tuple), which is neither the stored sentinel
`kNoElevationData` nor the service's no-data value — the claim that the
field "is the no-data sentinel" is false on this input. -/
theorem tunnel_mean_not_sentinel_cx :
    assocFind 7 (processTile envC [] tileC).meanElev = some 0 ∧
    (0 : ℚ) ≠ envC.kNoElevationData ∧ (0 : ℚ) ≠ envC.no_data_value := by
  refine ⟨?_, by norm_num [envC], by norm_num [envC]⟩
  norm_num [processTile, runEdges, stepEdge, assocFind, entryFor, meanFor,
    queryFor, missGrades, chosenSampling, applyEntry, initState, envC, tileC,
    tunnelEdge]

/-- C1 (amended): for every directed edge with the tunnel flag set or with
ferry use that is the first record of its EdgeInfoOffset, no sampling is
performed: the record is written with the flat bucket 6 and zero slopes,
the cached entry is flat (bucket 6) with zero slopes in both directions,
and — provided the service's no-data value is nonzero — the mean elevation
stored for the offset is 0, the mean of the zeroed default tuple, not the
no-data sentinel. -/
theorem tunnel_ferry_skips_sampling (env : Env) (shapes : ℕ → List Point)
    (pre post : List DirectedEdge) (e : DirectedEdge)
    (hpre : ∀ x ∈ pre, x.edgeinfo_offset ≠ e.edgeinfo_offset)
    (htf : e.tunnel = true ∨ e.ferry = true)
    (hnz : env.no_data_value ≠ 0) :
    (runEdges env shapes initState (pre ++ e :: post)).written[pre.length]? =
      some ⟨6, 0, 0⟩ ∧
    assocFind e.edgeinfo_offset
        (runEdges env shapes initState (pre ++ e :: post)).cache =
      some ⟨6, 6, 0, 0, 0, 0⟩ ∧
    assocFind e.edgeinfo_offset
        (runEdges env shapes initState (pre ++ e :: post)).meanElev =
      some 0 := by
  obtain ⟨h1, h2, h3, h4, h5⟩ := runEdges_first_miss env shapes pre e post hpre
  have hentry : entryFor env (shapes e.edgeinfo_offset) e =
      ⟨6, 6, 0, 0, 0, 0⟩ := by
    simp [entryFor, missGrades_tunnel_ferry env (shapes e.edgeinfo_offset) htf,
      gradeBucket_zero]
  have hmean : meanFor env (shapes e.edgeinfo_offset) e = 0 := by
    simp only [meanFor, missGrades_tunnel_ferry env (shapes e.edgeinfo_offset)
      htf]
    simp [Ne.symm hnz]
  have happly : applyEntry e (⟨6, 6, 0, 0, 0, 0⟩ : GradeEntry) = ⟨6, 0, 0⟩ := by
    cases hfw : e.forward <;> simp [applyEntry, hfw]
  refine ⟨?_, ?_, ?_⟩
  · rw [h5, hentry, happly]
  · rw [h1, hentry]
  · rw [h2, hmean]

/-- C1 witness: the amended claim applied to the concrete tunnel edge. -/
theorem tunnel_ferry_skips_sampling_witness :
    ((∀ x ∈ ([] : List DirectedEdge),
        x.edgeinfo_offset ≠ tunnelEdge.edgeinfo_offset) ∧
      (tunnelEdge.tunnel = true ∨ tunnelEdge.ferry = true) ∧
      envC.no_data_value ≠ 0) ∧
    ((runEdges envC shapesC initState
        ([] ++ tunnelEdge :: [])).written[([] : List DirectedEdge).length]? =
      some ⟨6, 0, 0⟩ ∧
    assocFind tunnelEdge.edgeinfo_offset
        (runEdges envC shapesC initState ([] ++ tunnelEdge :: [])).cache =
      some ⟨6, 6, 0, 0, 0, 0⟩ ∧
    assocFind tunnelEdge.edgeinfo_offset
        (runEdges envC shapesC initState ([] ++ tunnelEdge :: [])).meanElev =
      some 0) :=
  ⟨⟨by simp, Or.inl rfl, by norm_num [envC]⟩,
    tunnel_ferry_skips_sampling envC shapesC [] [] tunnelEdge (by simp)
      (Or.inl rfl) (by norm_num [envC])⟩

/-- C10: the tunnel/ferry rule takes precedence over the short-edge rule:
for a tunnel-or-ferry first record of its offset, even one shorter than
10 m, the height service is never queried for that offset (so the
weighted-grade algorithm never runs for it), and the mean elevation stored
for the offset is 0, the default from the zeroed grade tuple, not a mean
computed from endpoint samples (given a nonzero no-data value). -/
theorem tunnel_ferry_precedence (env : Env) (shapes : ℕ → List Point)
    (pre post : List DirectedEdge) (e : DirectedEdge)
    (hpre : ∀ x ∈ pre, x.edgeinfo_offset ≠ e.edgeinfo_offset)
    (htf : e.tunnel = true ∨ e.ferry = true)
    (hshort : e.length < 10)
    (hnz : env.no_data_value ≠ 0) :
    countOcc e.edgeinfo_offset
        ((runEdges env shapes initState (pre ++ e :: post)).queries.map
          Prod.fst) = 0 ∧
    (runEdges env shapes initState (pre ++ e :: post)).written[pre.length]? =
      some ⟨6, 0, 0⟩ ∧
    assocFind e.edgeinfo_offset
        (runEdges env shapes initState (pre ++ e :: post)).meanElev =
      some 0 := by
  obtain ⟨h1, h2, h3, h4, h5⟩ := runEdges_first_miss env shapes pre e post hpre
  have hq : (queryFor env (shapes e.edgeinfo_offset) e).length = 0 := by
    rw [queryFor_length]
    rcases htf with h | h <;> simp [h]
  have hentry : entryFor env (shapes e.edgeinfo_offset) e =
      ⟨6, 6, 0, 0, 0, 0⟩ := by
    simp [entryFor, missGrades_tunnel_ferry env (shapes e.edgeinfo_offset) htf,
      gradeBucket_zero]
  have hmean : meanFor env (shapes e.edgeinfo_offset) e = 0 := by
    simp only [meanFor, missGrades_tunnel_ferry env (shapes e.edgeinfo_offset)
      htf]
    simp [Ne.symm hnz]
  have happly : applyEntry e (⟨6, 6, 0, 0, 0, 0⟩ : GradeEntry) = ⟨6, 0, 0⟩ := by
    cases hfw : e.forward <;> simp [applyEntry, hfw]
  exact ⟨h4.trans hq, by rw [h5, hentry, happly], by rw [h2, hmean]⟩

/-- C10 witness: the precedence claim applied to the 5 m tunnel edge. -/
theorem tunnel_ferry_precedence_witness :
    ((∀ x ∈ ([] : List DirectedEdge),
        x.edgeinfo_offset ≠ shortTunnelEdge.edgeinfo_offset) ∧
      (shortTunnelEdge.tunnel = true ∨ shortTunnelEdge.ferry = true) ∧
      shortTunnelEdge.length < 10 ∧ envC.no_data_value ≠ 0) ∧
    (countOcc shortTunnelEdge.edgeinfo_offset
        ((runEdges envC shapesC initState
          ([] ++ shortTunnelEdge :: [])).queries.map Prod.fst) = 0 ∧
    (runEdges envC shapesC initState
        ([] ++ shortTunnelEdge :: [])).written[([] :
          List DirectedEdge).length]? = some ⟨6, 0, 0⟩ ∧
    assocFind shortTunnelEdge.edgeinfo_offset
        (runEdges envC shapesC initState
          ([] ++ shortTunnelEdge :: [])).meanElev = some 0) :=
  ⟨⟨by simp, Or.inl rfl, by norm_num [shortTunnelEdge], by norm_num [envC]⟩,
    tunnel_ferry_precedence envC shapesC [] [] shortTunnelEdge (by simp)
      (Or.inl rfl) (by norm_num [shortTunnelEdge]) (by norm_num [envC])⟩

/-- C2: within one tile, for two directed-edge records sharing one
EdgeInfoOffset (the first of which is the first record of that offset), the
miss computation runs exactly once for that offset over the whole tile —
namely while the first of the two records is processed (zero misses after
the prefix, one right after that record) — and, when sampling is not
skipped, the height-service query plus weighted-grade run happens exactly
once; both records are written from that single cache entry, each selecting
the forward or reverse triple by its own forward flag. -/
theorem cache_dedup_exactly_once (env : Env) (shapes : ℕ → List Point)
    (pre mid post : List DirectedEdge) (e e₂ : DirectedEdge)
    (hpre : ∀ x ∈ pre, x.edgeinfo_offset ≠ e.edgeinfo_offset)
    (h₂ : e₂.edgeinfo_offset = e.edgeinfo_offset) :
    countOcc e.edgeinfo_offset
        (runEdges env shapes initState
          (pre ++ e :: (mid ++ e₂ :: post))).misses = 1 ∧
    countOcc e.edgeinfo_offset
        (runEdges env shapes initState pre).misses = 0 ∧
    countOcc e.edgeinfo_offset
        (runEdges env shapes initState (pre ++ e :: [])).misses = 1 ∧
    (e.tunnel = false ∧ e.ferry = false →
      countOcc e.edgeinfo_offset
        ((runEdges env shapes initState
          (pre ++ e :: (mid ++ e₂ :: post))).queries.map Prod.fst) = 1) ∧
    (runEdges env shapes initState
        (pre ++ e :: (mid ++ e₂ :: post))).written[pre.length]? =
      some (applyEntry e (entryFor env (shapes e.edgeinfo_offset) e)) ∧
    (runEdges env shapes initState
        (pre ++ e :: (mid ++ e₂ :: post))).written[pre.length + 1 +
          mid.length]? =
      some (applyEntry e₂ (entryFor env (shapes e.edgeinfo_offset) e)) := by
  obtain ⟨h1, h2, h3, h4, h5⟩ := runEdges_first_miss env shapes pre e
    (mid ++ e₂ :: post) hpre
  refine ⟨h3, ?_, ?_, ?_, h5,
    runEdges_second_written env shapes pre e mid e₂ post hpre h₂⟩
  · exact (runEdges_untouched env shapes e.edgeinfo_offset pre initState
      hpre).2.2.1.trans rfl
  · exact (runEdges_first_miss env shapes pre e [] hpre).2.2.1
  · intro hnt
    rw [h4, queryFor_length, if_pos hnt]

/-- C2 witness: the dedup claim applied to a two-record tile whose records
share offset 3. -/
theorem cache_dedup_exactly_once_witness :
    ((∀ x ∈ ([] : List DirectedEdge),
        x.edgeinfo_offset ≠ fwdEdge.edgeinfo_offset) ∧
      revEdge.edgeinfo_offset = fwdEdge.edgeinfo_offset) ∧
    (countOcc fwdEdge.edgeinfo_offset
        (runEdges envC shapesC initState
          ([] ++ fwdEdge :: ([] ++ revEdge :: []))).misses = 1 ∧
    countOcc fwdEdge.edgeinfo_offset
        (runEdges envC shapesC initState []).misses = 0 ∧
    countOcc fwdEdge.edgeinfo_offset
        (runEdges envC shapesC initState ([] ++ fwdEdge :: [])).misses = 1 ∧
    (fwdEdge.tunnel = false ∧ fwdEdge.ferry = false →
      countOcc fwdEdge.edgeinfo_offset
        ((runEdges envC shapesC initState
          ([] ++ fwdEdge :: ([] ++ revEdge :: []))).queries.map Prod.fst) = 1) ∧
    (runEdges envC shapesC initState
        ([] ++ fwdEdge :: ([] ++ revEdge :: []))).written[([] :
          List DirectedEdge).length]? =
      some (applyEntry fwdEdge
        (entryFor envC (shapesC fwdEdge.edgeinfo_offset) fwdEdge)) ∧
    (runEdges envC shapesC initState
        ([] ++ fwdEdge :: ([] ++ revEdge :: []))).written[([] :
          List DirectedEdge).length + 1 + ([] : List DirectedEdge).length]? =
      some (applyEntry revEdge
        (entryFor envC (shapesC fwdEdge.edgeinfo_offset) fwdEdge))) :=
  ⟨⟨by simp, rfl⟩,
    cache_dedup_exactly_once envC shapesC [] [] [] fwdEdge revEdge (by simp)
      rfl⟩

/-- C3: for every computed weighted grade `g`, the stored bucket is
`⌊g * 0.6 + 6.5⌋` (for both the forward and the reverse direction), with the
double arithmetic taken exact; grade 0 maps to bucket 6, grade 15 to 15,
grade −10 to 0, and grade 20 to the out-of-band 18 — no clamping. -/
theorem grade_bucket_formula (env : Env) (sh : List Point) (e : DirectedEdge)
    (ht : e.tunnel = false) (hf : e.ferry = false)
    (hlen : ¬ e.length < 10) :
    (entryFor env sh e).forward_grade =
      ⌊(env.weighted_grade (env.get_all (chosenSampling env sh e).1)
          (chosenSampling env sh e).2).grade * (6 / 10) + 13 / 2⌋ ∧
    (entryFor env sh e).reverse_grade =
      ⌊(env.weighted_grade (env.get_all (chosenSampling env sh e).1).reverse
          (chosenSampling env sh e).2).grade * (6 / 10) + 13 / 2⌋ ∧
    gradeBucket 0 = 6 ∧ gradeBucket 15 = 15 ∧ gradeBucket (-10) = 0 ∧
    gradeBucket 20 = 18 := by
  refine ⟨?_, ?_, gradeBucket_zero, ?_, ?_, ?_⟩
  · simp [entryFor, missGrades_long env sh ht hf hlen, gradeBucket]
  · simp [entryFor, missGrades_long env sh ht hf hlen, gradeBucket]
  · norm_num [gradeBucket]
  · norm_num [gradeBucket]
  · norm_num [gradeBucket]

/-- C3 witness: the bucket formula applied to the concrete 20 m edge. -/
theorem grade_bucket_formula_witness :
    (fwdEdge.tunnel = false ∧ fwdEdge.ferry = false ∧
      ¬ fwdEdge.length < 10) ∧
    ((entryFor envC [(0, 1), (0, 2)] fwdEdge).forward_grade =
      ⌊(envC.weighted_grade
          (envC.get_all (chosenSampling envC [(0, 1), (0, 2)] fwdEdge).1)
          (chosenSampling envC [(0, 1), (0, 2)] fwdEdge).2).grade *
        (6 / 10) + 13 / 2⌋ ∧
    (entryFor envC [(0, 1), (0, 2)] fwdEdge).reverse_grade =
      ⌊(envC.weighted_grade
          (envC.get_all
            (chosenSampling envC [(0, 1), (0, 2)] fwdEdge).1).reverse
          (chosenSampling envC [(0, 1), (0, 2)] fwdEdge).2).grade *
        (6 / 10) + 13 / 2⌋ ∧
    gradeBucket 0 = 6 ∧ gradeBucket 15 = 15 ∧ gradeBucket (-10) = 0 ∧
    gradeBucket 20 = 18) :=
  ⟨⟨rfl, rfl, by norm_num [fwdEdge]⟩,
    grade_bucket_formula envC [(0, 1), (0, 2)] fwdEdge rfl rfl
      (by norm_num [fwdEdge])⟩

/-- C4: a non-tunnel/ferry edge shorter than 10 m (first record of its
offset) is written with the flat bucket and zero slopes and its cache entry
is flat in both directions, but the mean elevation stored for its offset is
the mean computed by the weighted-grade algorithm from the two sampled
endpoint heights — unless that mean is the service's no-data value, in which
case the sentinel `kNoElevationData` is stored. -/
theorem short_edge_discards_grades (env : Env) (shapes : ℕ → List Point)
    (pre post : List DirectedEdge) (e : DirectedEdge)
    (hpre : ∀ x ∈ pre, x.edgeinfo_offset ≠ e.edgeinfo_offset)
    (ht : e.tunnel = false) (hf : e.ferry = false) (hlen : e.length < 10) :
    (runEdges env shapes initState (pre ++ e :: post)).written[pre.length]? =
      some ⟨6, 0, 0⟩ ∧
    assocFind e.edgeinfo_offset
        (runEdges env shapes initState (pre ++ e :: post)).cache =
      some ⟨6, 6, 0, 0, 0, 0⟩ ∧
    ((env.weighted_grade (env.get_all [(shapes e.edgeinfo_offset).headI,
          (shapes e.edgeinfo_offset).getLastI])
        (e.length : ℚ)).mean_elev ≠ env.no_data_value →
      assocFind e.edgeinfo_offset
          (runEdges env shapes initState (pre ++ e :: post)).meanElev =
        some ((env.weighted_grade
          (env.get_all [(shapes e.edgeinfo_offset).headI,
            (shapes e.edgeinfo_offset).getLastI])
          (e.length : ℚ)).mean_elev)) ∧
    ((env.weighted_grade (env.get_all [(shapes e.edgeinfo_offset).headI,
          (shapes e.edgeinfo_offset).getLastI])
        (e.length : ℚ)).mean_elev = env.no_data_value →
      assocFind e.edgeinfo_offset
          (runEdges env shapes initState (pre ++ e :: post)).meanElev =
        some env.kNoElevationData) := by
  obtain ⟨h1, h2, h3, h4, h5⟩ := runEdges_first_miss env shapes pre e post hpre
  have hs : chosenSampling env (shapes e.edgeinfo_offset) e =
      ([(shapes e.edgeinfo_offset).headI,
        (shapes e.edgeinfo_offset).getLastI], (e.length : ℚ)) := by
    rw [chosenSampling, if_pos (Or.inl (Nat.lt_trans hlen (by norm_num)))]
  have hmg := missGrades_short env (shapes e.edgeinfo_offset) ht hf hlen
  have hentry : entryFor env (shapes e.edgeinfo_offset) e =
      ⟨6, 6, 0, 0, 0, 0⟩ := by
    simp [entryFor, hmg, gradeBucket_zero]
  have happly : applyEntry e (⟨6, 6, 0, 0, 0, 0⟩ : GradeEntry) = ⟨6, 0, 0⟩ := by
    cases hfw : e.forward <;> simp [applyEntry, hfw]
  have hmean : meanFor env (shapes e.edgeinfo_offset) e =
      if (env.weighted_grade (env.get_all [(shapes e.edgeinfo_offset).headI,
            (shapes e.edgeinfo_offset).getLastI])
          (e.length : ℚ)).mean_elev = env.no_data_value
      then env.kNoElevationData
      else (env.weighted_grade
        (env.get_all [(shapes e.edgeinfo_offset).headI,
          (shapes e.edgeinfo_offset).getLastI]) (e.length : ℚ)).mean_elev := by
    simp [meanFor, hmg, hs]
  refine ⟨by rw [h5, hentry, happly], by rw [h1, hentry], ?_, ?_⟩
  · intro hne
    rw [h2, hmean, if_neg hne]
  · intro heq
    rw [h2, hmean, if_pos heq]

/-- C4 witness: the short-edge claim applied to the concrete 7 m edge, whose
computed mean elevation `8` is stored (and differs from the no-data value). -/
theorem short_edge_discards_grades_witness :
    ((∀ x ∈ ([] : List DirectedEdge),
        x.edgeinfo_offset ≠ shortEdge.edgeinfo_offset) ∧
      shortEdge.tunnel = false ∧ shortEdge.ferry = false ∧
      shortEdge.length < 10 ∧
      (envC.weighted_grade
          (envC.get_all [(shapesC shortEdge.edgeinfo_offset).headI,
            (shapesC shortEdge.edgeinfo_offset).getLastI])
          (shortEdge.length : ℚ)).mean_elev ≠ envC.no_data_value) ∧
    ((runEdges envC shapesC initState
        ([] ++ shortEdge :: [])).written[([] : List DirectedEdge).length]? =
      some ⟨6, 0, 0⟩ ∧
    assocFind shortEdge.edgeinfo_offset
        (runEdges envC shapesC initState ([] ++ shortEdge :: [])).cache =
      some ⟨6, 6, 0, 0, 0, 0⟩ ∧
    assocFind shortEdge.edgeinfo_offset
        (runEdges envC shapesC initState ([] ++ shortEdge :: [])).meanElev =
      some ((envC.weighted_grade
        (envC.get_all [(shapesC shortEdge.edgeinfo_offset).headI,
          (shapesC shortEdge.edgeinfo_offset).getLastI])
        (shortEdge.length : ℚ)).mean_elev)) := by
  have hne : (envC.weighted_grade
      (envC.get_all [(shapesC shortEdge.edgeinfo_offset).headI,
        (shapesC shortEdge.edgeinfo_offset).getLastI])
      (shortEdge.length : ℚ)).mean_elev ≠ envC.no_data_value := by
    norm_num [envC, shapesC, shortEdge]
  have h := short_edge_discards_grades envC shapesC [] [] shortEdge (by simp)
    rfl rfl (by norm_num [shortEdge])
  exact ⟨⟨by simp, rfl, rfl, by norm_num [shortEdge], hne⟩,
    h.1, h.2.1, h.2.2.1 hne⟩

/-- Entries of the query log are never removed by later steps. -/
theorem runEdges_queries_mem (env : Env) (shapes : ℕ → List Point) :
    ∀ (p : List DirectedEdge) (st : TileState)
      (q : ℕ × List Point × ℚ),
      q ∈ st.queries → q ∈ (runEdges env shapes st p).queries := by
  intro p
  induction p with
  | nil => intro st q h; exact h
  | cons e es ih =>
      intro st q h
      rw [runEdges_cons]
      apply ih
      cases hf : assocFind e.edgeinfo_offset st.cache with
      | some g =>
          rw [stepEdge_hit env shapes st e hf]
          exact h
      | none =>
          rw [stepEdge_miss env shapes st e hf]
          exact List.mem_append_left _ h

/-- C5: for a sampled edge of length at least 10 m, the reverse tuple is the
weighted-grade algorithm run on the exact reversal of the forward height
sequence with the same interval (grade bucket and both max slopes), and it
is not defined as the arithmetic negation of the forward result: on a
concrete instance the reverse grade differs from the negated forward
grade. -/
theorem reverse_from_reversed_heights (env : Env) (sh : List Point)
    (e : DirectedEdge) (ht : e.tunnel = false) (hf : e.ferry = false)
    (hlen : ¬ e.length < 10) :
    (missGrades env sh e).2.1 =
      env.weighted_grade (env.get_all (chosenSampling env sh e).1).reverse
        (chosenSampling env sh e).2 ∧
    (entryFor env sh e).reverse_grade =
      gradeBucket (env.weighted_grade
        (env.get_all (chosenSampling env sh e).1).reverse
        (chosenSampling env sh e).2).grade ∧
    (entryFor env sh e).reverse_max_up =
      (env.weighted_grade (env.get_all (chosenSampling env sh e).1).reverse
        (chosenSampling env sh e).2).max_up ∧
    (entryFor env sh e).reverse_max_down =
      (env.weighted_grade (env.get_all (chosenSampling env sh e).1).reverse
        (chosenSampling env sh e).2).max_down ∧
    (missGrades envC [(0, 1), (0, 2)] fwdEdge).2.1.grade ≠
      -(missGrades envC [(0, 1), (0, 2)] fwdEdge).1.grade := by
  refine ⟨?_, ?_, ?_, ?_, ?_⟩
  · simp [missGrades_long env sh ht hf hlen]
  · simp [entryFor, missGrades_long env sh ht hf hlen]
  · simp [entryFor, missGrades_long env sh ht hf hlen]
  · simp [entryFor, missGrades_long env sh ht hf hlen]
  · norm_num [missGrades, chosenSampling, envC, fwdEdge, List.getLastI]

/-- C5 witness: the reversal claim applied to the concrete 20 m edge. -/
theorem reverse_from_reversed_heights_witness :
    (fwdEdge.tunnel = false ∧ fwdEdge.ferry = false ∧
      ¬ fwdEdge.length < 10) ∧
    ((missGrades envC [(0, 1), (0, 2)] fwdEdge).2.1 =
      envC.weighted_grade
        (envC.get_all (chosenSampling envC [(0, 1), (0, 2)] fwdEdge).1).reverse
        (chosenSampling envC [(0, 1), (0, 2)] fwdEdge).2 ∧
    (entryFor envC [(0, 1), (0, 2)] fwdEdge).reverse_grade =
      gradeBucket (envC.weighted_grade
        (envC.get_all (chosenSampling envC [(0, 1), (0, 2)] fwdEdge).1).reverse
        (chosenSampling envC [(0, 1), (0, 2)] fwdEdge).2).grade ∧
    (entryFor envC [(0, 1), (0, 2)] fwdEdge).reverse_max_up =
      (envC.weighted_grade
        (envC.get_all (chosenSampling envC [(0, 1), (0, 2)] fwdEdge).1).reverse
        (chosenSampling envC [(0, 1), (0, 2)] fwdEdge).2).max_up ∧
    (entryFor envC [(0, 1), (0, 2)] fwdEdge).reverse_max_down =
      (envC.weighted_grade
        (envC.get_all (chosenSampling envC [(0, 1), (0, 2)] fwdEdge).1).reverse
        (chosenSampling envC [(0, 1), (0, 2)] fwdEdge).2).max_down ∧
    (missGrades envC [(0, 1), (0, 2)] fwdEdge).2.1.grade ≠
      -(missGrades envC [(0, 1), (0, 2)] fwdEdge).1.grade) :=
  ⟨⟨rfl, rfl, by norm_num [fwdEdge]⟩,
    reverse_from_reversed_heights envC [(0, 1), (0, 2)] fwdEdge rfl rfl
      (by norm_num [fwdEdge])⟩

/-- C6: for a sampled (non-tunnel/ferry) first record of its offset with a
nonempty shape: when its length is under 180 m or it is a bridge, the height
service is queried with exactly the two shape endpoints and the interval
passed on to the grade algorithm is the edge length; otherwise with the
shape resampled every 60 m and interval 60; either way that offset is
queried exactly once. -/
theorem sampling_choice (env : Env) (shapes : ℕ → List Point)
    (pre post : List DirectedEdge) (e : DirectedEdge)
    (hpre : ∀ x ∈ pre, x.edgeinfo_offset ≠ e.edgeinfo_offset)
    (ht : e.tunnel = false) (hf : e.ferry = false)
    (hsh : shapes e.edgeinfo_offset ≠ []) :
    ((e.length < 180 ∨ e.bridge = true) →
      (e.edgeinfo_offset, ([(shapes e.edgeinfo_offset).headI,
          (shapes e.edgeinfo_offset).getLastI], (e.length : ℚ))) ∈
        (runEdges env shapes initState (pre ++ e :: post)).queries) ∧
    (¬ (e.length < 180 ∨ e.bridge = true) →
      (e.edgeinfo_offset, (env.resample (shapes e.edgeinfo_offset) 60,
          (60 : ℚ))) ∈
        (runEdges env shapes initState (pre ++ e :: post)).queries) ∧
    countOcc e.edgeinfo_offset
        ((runEdges env shapes initState (pre ++ e :: post)).queries.map
          Prod.fst) = 1 := by
  have hc1 : assocFind e.edgeinfo_offset
      (runEdges env shapes initState pre).cache = none := by
    rw [(runEdges_untouched env shapes e.edgeinfo_offset pre initState
      hpre).1]
    rfl
  have hstep := stepEdge_miss env shapes (runEdges env shapes initState pre)
    e hc1
  have hqf : queryFor env (shapes e.edgeinfo_offset) e =
      [(e.edgeinfo_offset,
        chosenSampling env (shapes e.edgeinfo_offset) e)] := by
    by_cases hl : e.length < 10 <;>
      simp [queryFor, missGrades, ht, hf, hl]
  have hcount : countOcc e.edgeinfo_offset
      ((runEdges env shapes initState (pre ++ e :: post)).queries.map
        Prod.fst) = 1 := by
    rw [(runEdges_first_miss env shapes pre e post hpre).2.2.2.1,
      queryFor_length, if_pos ⟨ht, hf⟩]
  have hmem : (e.edgeinfo_offset,
      chosenSampling env (shapes e.edgeinfo_offset) e) ∈
      (runEdges env shapes initState (pre ++ e :: post)).queries := by
    rw [runEdges_append, runEdges_cons]
    apply runEdges_queries_mem
    rw [hstep]
    simp [hqf]
  refine ⟨?_, ?_, hcount⟩
  · intro hcond
    have hcs : chosenSampling env (shapes e.edgeinfo_offset) e =
        ([(shapes e.edgeinfo_offset).headI,
          (shapes e.edgeinfo_offset).getLastI], (e.length : ℚ)) := by
      rw [chosenSampling, if_pos hcond]
    exact hcs ▸ hmem
  · intro hcond
    have hcs : chosenSampling env (shapes e.edgeinfo_offset) e =
        (env.resample (shapes e.edgeinfo_offset) 60, (60 : ℚ)) := by
      rw [chosenSampling, if_neg hcond]
    exact hcs ▸ hmem

/-- C6 witness: the sampling-choice claim applied to the concrete 20 m edge
(shorter than 180 m, not a bridge: endpoint sampling with interval 20). -/
theorem sampling_choice_witness :
    ((∀ x ∈ ([] : List DirectedEdge),
        x.edgeinfo_offset ≠ fwdEdge.edgeinfo_offset) ∧
      fwdEdge.tunnel = false ∧ fwdEdge.ferry = false ∧
      shapesC fwdEdge.edgeinfo_offset ≠ [] ∧
      (fwdEdge.length < 180 ∨ fwdEdge.bridge = true)) ∧
    ((fwdEdge.edgeinfo_offset, ([(shapesC fwdEdge.edgeinfo_offset).headI,
        (shapesC fwdEdge.edgeinfo_offset).getLastI],
        (fwdEdge.length : ℚ))) ∈
      (runEdges envC shapesC initState ([] ++ fwdEdge :: [])).queries ∧
    countOcc fwdEdge.edgeinfo_offset
        ((runEdges envC shapesC initState
          ([] ++ fwdEdge :: [])).queries.map Prod.fst) = 1) := by
  have h := sampling_choice envC shapesC [] [] fwdEdge (by simp) rfl rfl
    (by simp [shapesC])
  exact ⟨⟨by simp, rfl, rfl, by simp [shapesC], Or.inl (by norm_num [fwdEdge])⟩,
    h.1 (Or.inl (by norm_num [fwdEdge])), h.2.2⟩

/-- C7: the GeoAttributeCache is cleared before each tile's first lookup:
although one cache object is reused across all tiles a worker handles, a
tile's outcome never depends on the contents carried over from earlier
tiles, and the worker's per-tile outputs are exactly those of processing
every tile from an empty cache. -/
theorem cache_cleared_per_tile (env : Env) :
    (∀ (c₁ c₂ : List (ℕ × GradeEntry)) (t : Tile),
      processTile env c₁ t = processTile env c₂ t) ∧
    (∀ (tiles : List Tile) (c : List (ℕ × GradeEntry)),
      (workerRun env c tiles).1 =
        tiles.map (fun t => processTile env [] t)) := by
  refine ⟨fun c₁ c₂ t => rfl, ?_⟩
  intro tiles
  induction tiles with
  | nil => intro c; rfl
  | cons t ts ih =>
      intro c
      show processTile env c t ::
        (workerRun env (processTile env c t).cache ts).1 = _
      rw [ih]
      rfl

/-- C8: when the configured elevation source is absent or names a
nonexistent location, Build logs the warning and returns at once: no worker
thread is spawned and no tile is processed or mutated. -/
theorem build_noop_without_elevation (env : Env) (enumerated : List Tile)
    (cfg : BuildConfig) (tiles : List Tile)
    (h : cfg.elevation = none ∨
      ∃ p, cfg.elevation = some p ∧ cfg.pathExists p = false) :
    Build env enumerated cfg tiles = ⟨true, 0, []⟩ := by
  rcases h with h | ⟨p, hp, hex⟩
  · simp [Build, h]
  · simp [Build, hp, hex]

/-- A configuration with no elevation source set. -/
def cfgNoElev : BuildConfig := ⟨none, fun _ => false, none, 4⟩

/-- C8 witness: Build on a configuration without an elevation source. -/
theorem build_noop_without_elevation_witness :
    (cfgNoElev.elevation = none ∨
      ∃ p, cfgNoElev.elevation = some p ∧ cfgNoElev.pathExists p = false) ∧
    Build envC [] cfgNoElev [tileC] = ⟨true, 0, []⟩ :=
  ⟨Or.inl rfl,
    build_noop_without_elevation envC [] cfgNoElev [tileC] (Or.inl rfl)⟩

theorem runQueue_nil_queue : ∀ sched : List ℕ, runQueue [] sched = ([], []) := by
  intro sched
  induction sched with
  | nil => rfl
  | cons w rest ih => simp [runQueue, ih]

theorem runQueue_drains_aux :
    ∀ (sched q : List ℕ), q.length ≤ sched.length →
      (runQueue q sched).1 = [] ∧
      (runQueue q sched).2.map Prod.snd = q := by
  intro sched
  induction sched with
  | nil =>
      intro q hq
      have hqe : q = [] := List.eq_nil_of_length_eq_zero (Nat.le_zero.mp hq)
      subst hqe
      exact ⟨rfl, rfl⟩
  | cons w rest ih =>
      intro q hq
      cases q with
      | nil => simp [runQueue, runQueue_nil_queue]
      | cons id q2 =>
          have h2 := ih q2 (by simpa using hq)
          simp [runQueue, h2.1, h2.2]

/-- C9: all pops go through the one mutex, so a run of the worker pool is an
interleaving of pop attempts; for every initial tile list of size K and
worker count N ≥ 1, once the workers have made enough pop attempts (each
worker loops until it sees an empty queue) every identifier has been popped
exactly once across all workers — the pop log is exactly the initial list —
no identifier twice, and the final queue is empty. -/
theorem queue_drains (K N : ℕ) (q sched : List ℕ)
    (hK : q.length = K) (hN : 1 ≤ N) (hw : ∀ w ∈ sched, w < N)
    (hs : K ≤ sched.length) :
    (runQueue q sched).1 = [] ∧
    (runQueue q sched).2.map Prod.snd = q ∧
    ∀ id, countOcc id ((runQueue q sched).2.map Prod.snd) =
      countOcc id q := by
  obtain ⟨h1, h2⟩ := runQueue_drains_aux sched q (by rw [hK]; exact hs)
  exact ⟨h1, h2, fun id => by rw [h2]⟩

/-- C9 witness: three tiles drained by two workers over a three-pop
schedule. -/
theorem queue_drains_witness :
    (([10, 20, 30] : List ℕ).length = 3 ∧ 1 ≤ 2 ∧
      (∀ w ∈ ([0, 1, 0] : List ℕ), w < 2) ∧
      3 ≤ ([0, 1, 0] : List ℕ).length) ∧
    ((runQueue [10, 20, 30] [0, 1, 0]).1 = [] ∧
    (runQueue [10, 20, 30] [0, 1, 0]).2.map Prod.snd = [10, 20, 30] ∧
    ∀ id, countOcc id ((runQueue [10, 20, 30] [0, 1, 0]).2.map Prod.snd) =
      countOcc id [10, 20, 30]) :=
  ⟨⟨rfl, by norm_num, by decide, by decide⟩,
    queue_drains 3 2 [10, 20, 30] [0, 1, 0] rfl (by norm_num) (by decide)
      (by decide)⟩

end ElevationBuilder
